import Mathlib

/-!
# Verification of the ClickHouse sqlboiler driver

Shallow embedding of the `drivers` package (ClickHouse driver for the
sqlboiler code generator).  Pure string manipulation from the Go standard
library (`strings`, `strconv`, `net/url`) is modelled on `List Char`
(every string this driver manipulates is ASCII, where Go's byte indices
coincide with character indices).  Database I/O is modelled by passing the
catalog rows a query would return as explicit arguments.
-/

namespace ClickhouseDriver

/-! ## Go standard-library string helpers -/

/-- `strings.Index s (single char c)`: index of the first occurrence of `c`,
`none` where Go returns `-1`. -/
def goIndex (c : Char) : List Char → Option Nat
  | [] => none
  | x :: xs => if x = c then some 0 else (goIndex c xs).map (· + 1)

/-- `strings.LastIndex s (single char c)`: index of the last occurrence of `c`,
`none` where Go returns `-1`. -/
def goLastIndex (c : Char) : List Char → Option Nat
  | [] => none
  | x :: xs =>
    match goLastIndex c xs with
    | some i => some (i + 1)
    | none => if x = c then some 0 else none

/-- Leading half of `strings.Trim`: drop leading characters that are in the
cutset. -/
def trimLeftCut (cut : List Char) : List Char → List Char
  | [] => []
  | x :: xs => if x ∈ cut then trimLeftCut cut xs else x :: xs

/-- Trailing half of `strings.Trim`: drop trailing characters that are in the
cutset. -/
def trimRightCut (cut : List Char) (l : List Char) : List Char :=
  (trimLeftCut cut l.reverse).reverse

/-- `strings.Trim s cutset`: drop leading and trailing cutset characters. -/
def trimCut (cut : List Char) (l : List Char) : List Char :=
  trimRightCut cut (trimLeftCut cut l)

/-- The cutset `"() "` used by `parseEngine`. -/
def parenSpace : List Char := ['(', ')', ' ']

/-- The cutset `", "` used by `parseEngine`. -/
def commaSpace : List Char := [',', ' ']

/-- Whitespace characters recognised by `strings.TrimSpace` (the ones with
code points below U+2000; the driver only ever sees ASCII). -/
def goSpace : List Char :=
  [' ', Char.ofNat 9, Char.ofNat 10, Char.ofNat 11, Char.ofNat 12,
   Char.ofNat 13, Char.ofNat 0x85, Char.ofNat 0xA0]

/-- `strings.TrimSpace`. -/
def trimSpaceL (l : List Char) : List Char := trimCut goSpace l

/-- `strings.Split s (single char c)`. -/
def splitOn (c : Char) : List Char → List (List Char)
  | [] => [[]]
  | x :: xs =>
    if x = c then [] :: splitOn c xs
    else
      match splitOn c xs with
      | h :: t => (x :: h) :: t
      | [] => [[x]]

/-- `strings.Repeat s n`: `n` concatenated copies of `s`. -/
def goRepeat (s : String) : Nat → String
  | 0 => ""
  | n + 1 => s ++ goRepeat s n

/-- Decimal digit run for `strconv.Atoi`: accumulate digits, fail on any
non-digit. -/
def digitsToNatAux : List Char → Nat → Option Nat
  | [], acc => some acc
  | c :: cs, acc =>
    if c.isDigit then digitsToNatAux cs (acc * 10 + (c.toNat - 48)) else none

/-- Nonempty run of decimal digits, as a number. -/
def digitsToNat (l : List Char) : Option Nat :=
  if l = [] then none else digitsToNatAux l 0

/-- `strconv.Atoi`: optional sign followed by a nonempty digit run.
(Go additionally fails on 64-bit overflow; granularities are small, so the
range check is omitted.) -/
def atoi (l : List Char) : Option Int :=
  match l with
  | '-' :: rest => (digitsToNat rest).map (fun n => -(n : Int))
  | '+' :: rest => (digitsToNat rest).map (fun n => (n : Int))
  | _ => (digitsToNat l).map (fun n => (n : Int))

/-- `strconv.FormatBool`. -/
def formatBool (b : Bool) : String := if b then "true" else "false"

/-- First value stored under `key` in an association list of query
parameters. -/
def getParam (key : String) : List (String × String) → Option String
  | [] => none
  | (k, v) :: rest => if k = key then some v else getParam key rest

/-- Whether an `Except` result is an error. -/
def isErr {ε α : Type} : Except ε α → Bool
  | .error _ => true
  | .ok _ => false

/-! ## Data model

`bdb.Column` restricted to the fields this driver reads or writes
(`Name`, `FullDBType`, `DBType`, `Default`, `Type`).  The Go field `Type`
is a reserved word in Lean, written `«Type»` here. -/

structure Column where
  Name : String
  FullDBType : String
  DBType : String
  Default : String
  «Type» : String
  deriving DecidableEq

/-- `bdb.PrimaryKey` restricted to the fields this driver populates. -/
structure PrimaryKey where
  Name : String
  Columns : List String
  deriving DecidableEq

/-- The parsed engine descriptor (`clickhouseEngine`). -/
structure clickhouseEngine where
  Name : String
  PartitioningKey : String
  PrimaryKey : List String
  Granularity : Int
  deriving DecidableEq

/-- `ClickhouseDriverConfig`.  Go `int` fields are modelled as `Int`. -/
structure ClickhouseDriverConfig where
  Username : String
  Password : String
  Database : String
  Host : String
  Port : Int
  ReadTimeout : Int
  WriteTimeout : Int
  Nagle : Bool
  AltHosts : List String
  ConnectionOpenStrategy : String
  BlockSize : Int
  Debug : Bool
  Secure : Bool
  SkipVerify : Bool
  deriving DecidableEq

/-- The package-level mutable globals read around `TranslateColumnType`:
`UInt8AsBool` is declared in this file of the repository; `TinyintAsBool`
is the analogous global declared in the package's MySQL driver file.
Both are modelled as one explicit state record. -/
structure DriverGlobals where
  UInt8AsBool : Bool
  TinyintAsBool : Bool
  deriving DecidableEq

/-! ## Connection-string builder (`ClickhouseBuildQueryString`) -/

/-- ASCII apostrophe, written by code point to keep it out of string
literals. -/
def sq : String := String.singleton (Char.ofNat 39)

/-- The query parameters set on the `url.Values` map by
`ClickhouseBuildQueryString`, as (key, value) pairs in the order the Go
code sets them.  Each key is set at most once, so this list is exactly the
content of the map; `url.Values.Encode` then emits it sorted by key with
percent-escaping, which no claim depends on. -/
def clickhouseQueryParams (config : ClickhouseDriverConfig) : List (String × String) :=
  (if config.Username ≠ "" then [("username", config.Username)] else []) ++
  (if config.Password ≠ "" then [("password", config.Password)] else []) ++
  [("database", config.Database)] ++
  (if config.ReadTimeout ≠ 0 then [("read_timeout", toString config.ReadTimeout)] else []) ++
  (if config.WriteTimeout ≠ 0 then [("write_timeout", toString config.WriteTimeout)] else []) ++
  [("no_delay", formatBool (!config.Nagle))] ++
  (if config.AltHosts.length > 0 then [("alt_hosts", String.intercalate "," config.AltHosts)] else []) ++
  (if config.ConnectionOpenStrategy ≠ "" then [("connection_open_strategy", config.ConnectionOpenStrategy)] else []) ++
  (if config.BlockSize > 0 then [("block_size", toString config.BlockSize)] else []) ++
  [("debug", formatBool config.Debug)]

/-! ## Table listing (`TableNames`): query construction

The SQL text and the parameter list handed to `dbConn.Query` are built
purely from the arguments; the network round-trip itself is not modelled. -/

/-- The fixed base query of `TableNames`. -/
def tableNamesBaseQuery : String :=
  "select name from system.tables where database = ? and database <> " ++
    sq ++ "system" ++ sq

/-- `strings.Repeat(",?", n)[1:]` — the placeholder list for an IN clause. -/
def placeholders (n : Nat) : String := (goRepeat ",?" n).drop 1

/-- The (query text, parameters) pair built by `TableNames`. -/
def tableNamesQuery (database : String) (whitelist blacklist : List String) :
    String × List String :=
  if whitelist.length > 0 then
    (tableNamesBaseQuery ++ " and name in (" ++ placeholders whitelist.length ++ ");",
      [database] ++ whitelist)
  else if blacklist.length > 0 then
    (tableNamesBaseQuery ++ " and name not in (" ++ placeholders blacklist.length ++ ");",
      [database] ++ blacklist)
  else
    (tableNamesBaseQuery, [database])

/-! ## Column listing (`Columns`) -/

/-- The type-normalisation step of `Columns`:
`idx := strings.Index(fullColType, "("); if idx > 0 { colType = fullColType[:idx] }`. -/
def normalizeDBType (fullColType : String) : String :=
  match goIndex '(' fullColType.data with
  | some idx => if idx > 0 then String.mk (fullColType.data.take idx) else fullColType
  | none => fullColType

/-- `Columns`, applied to the catalog rows the query would return:
one `(name, type, default_expression)` triple per row. -/
def columnsOf (rows : List (String × String × String)) : List Column :=
  rows.map (fun r =>
    { Name := r.1, FullDBType := r.2.1, DBType := normalizeDBType r.2.1,
      Default := r.2.2, «Type» := "" })

/-- Modelled from the spec: the spec sentence says the normalized base
type equals the raw type truncated at (not including) the first `(` when
one is present, with no exception for a `(` at position 0.  Stated here
for comparison with `normalizeDBType`. -/
def specNormalizeDBType (t : String) : String :=
  match goIndex '(' t.data with
  | some idx => String.mk (t.data.take idx)
  | none => t

/-! ## Engine-string parsing (`parseEngine`) -/

/-- Granularity and primary-key half of `parseEngine`: `partKey` is the
already-split partitioning key, `params2` the remaining text after
`strings.TrimLeft(params[idx:], ", ")`. -/
def parseEngineTail (partKey params2 : List Char) :
    Except String (List Char × List (List Char) × Int) :=
  match goLastIndex ',' params2 with
  | none => .error "granularity key not found"
  | some idx3 =>
    match atoi (trimCut commaSpace (params2.drop idx3)) with
    | none => .error "parsing granularity failed"
    | some g =>
      .ok (partKey,
        (splitOn ',' (trimCut parenSpace (params2.take idx3))).map trimSpaceL, g)

/-- The tail of `parseEngine` after the engine name has been split off:
argument is `strings.Trim(str[idx:], "() ")`. -/
def parseEngineRest (params : List Char) :
    Except String (List Char × List (List Char) × Int) :=
  match goIndex ',' params with
  | none => .error "partitioning key not found"
  | some idx2 =>
    parseEngineTail (params.take idx2) (trimLeftCut commaSpace (params.drop idx2))

/-- `parseEngine`. -/
def parseEngine (str : String) : Except String clickhouseEngine :=
  match goIndex '(' str.data with
  | none => .error "open bracket not found"
  | some idx =>
    match parseEngineRest (trimCut parenSpace (str.data.drop idx)) with
    | .error e => .error e
    | .ok (partKey, primaryKey, g) =>
      .ok { Name := String.mk (str.data.take idx),
            PartitioningKey := String.mk partKey,
            PrimaryKey := primaryKey.map String.mk,
            Granularity := g }

/-- The parenthesized body of an engine string, trimmed of parentheses and
spaces — the `params` value `parseEngine` computes before looking for
commas. -/
def engineBody (s : String) : Option (List Char) :=
  (goIndex '(' s.data).map (fun idx => trimCut parenSpace (s.data.drop idx))

/-! ## Primary-key lookup (`PrimaryKeyInfo`)

The catalog row (`name, engine_full` from `system.tables`) is passed
explicitly: `none` models `sql.ErrNoRows`. -/

/-- `PrimaryKeyInfo`.  `database` and `table` only parameterize the query,
so the result depends only on the row the catalog returns. -/
def primaryKeyInfo (database table : String) (row : Option (String × String)) :
    Except String (Option PrimaryKey) :=
  match row with
  | none => .ok none
  | some (name, engineFull) =>
    match parseEngine engineFull with
    | .error e => .error ("bad engine=" ++ engineFull ++ ": " ++ e)
    | .ok engine => .ok (some { Name := name, Columns := engine.PrimaryKey })

/-! ## Type translation (`TranslateColumnType`) -/

/-- The `switch c.DBType` of `TranslateColumnType`, producing the Go type
name.  Note the `UInt8` arm reads the global `TinyintAsBool`, not
`UInt8AsBool`. -/
def translateType (g : DriverGlobals) (dbType : String) : String :=
  match dbType with
  | "UInt8" => if g.TinyintAsBool then "bool" else "uint8"
  | "UInt16" => "uint16"
  | "UInt32" => "uint32"
  | "UInt64" => "uint64"
  | "Int8" => "int8"
  | "Int16" => "int16"
  | "Int32" => "int32"
  | "Int64" => "int64"
  | "Float32" => "float32"
  | "Float64" => "float64"
  | "Date" | "DateTime" => "time.Time"
  | "FixedString" => "types.FixedString"
  | "String" => "string"
  | _ => "[]byte"

/-- `TranslateColumnType`: sets `c.Type` from `c.DBType` and returns the
column otherwise unchanged. -/
def translateColumnType (g : DriverGlobals) (c : Column) : Column :=
  { c with «Type» := translateType g c.DBType }

/-- The base types with a dedicated arm in the `switch`. -/
def recognizedTypes : List String :=
  ["UInt8", "UInt16", "UInt32", "UInt64", "Int8", "Int16", "Int32", "Int64",
   "Float32", "Float64", "Date", "DateTime", "FixedString", "String"]

/-! ## Helper lemmas -/

theorem goIndex_eq_none {c : Char} : ∀ {l : List Char}, c ∉ l → goIndex c l = none := by
  intro l h
  induction l with
  | nil => rfl
  | cons x xs ih =>
    simp only [List.mem_cons, not_or] at h
    obtain ⟨h1, h2⟩ := h
    simp only [goIndex, if_neg (fun hxc : x = c => h1 hxc.symm), ih h2, Option.map_none']

theorem trimLeftCut_eq_drop (cut : List Char) (l : List Char) :
    ∃ k, trimLeftCut cut l = l.drop k := by
  induction l with
  | nil => exact ⟨0, rfl⟩
  | cons x xs ih =>
    by_cases hx : x ∈ cut
    · obtain ⟨k, hk⟩ := ih
      exact ⟨k + 1, by simp [trimLeftCut, hx, hk]⟩
    · exact ⟨0, by simp [trimLeftCut, hx]⟩

theorem goLastIndex_drop {c : Char} :
    ∀ (m : Nat) (l : List Char) {j : Nat},
      goLastIndex c (l.drop m) = some j → goLastIndex c l = some (m + j) := by
  intro m
  induction m with
  | zero => intro l j h; simpa using h
  | succ n ih =>
    intro l j h
    cases l with
    | nil => simp [goLastIndex] at h
    | cons x xs =>
      rw [List.drop_succ_cons] at h
      have h2 := ih xs h
      show goLastIndex c (x :: xs) = some (n + 1 + j)
      simp only [goLastIndex, h2]
      have : n + j + 1 = n + 1 + j := by omega
      rw [this]

theorem getParam_append (key : String) (xs ys : List (String × String))
    (h : ∀ p ∈ xs, p.1 ≠ key) :
    getParam key (xs ++ ys) = getParam key ys := by
  induction xs with
  | nil => rfl
  | cons x xs ih =>
    obtain ⟨k, v⟩ := x
    have hk : k ≠ key := h (k, v) (List.mem_cons_self _ _)
    simp only [List.cons_append, getParam, if_neg hk]
    exact ih (fun p hp => h p (List.mem_cons_of_mem _ hp))

theorem mem_ite_singleton {b : Prop} [Decidable b] {k v key : String}
    (hk : k ≠ key) :
    ∀ p ∈ (if b then [(k, v)] else ([] : List (String × String))), p.1 ≠ key := by
  intro p hp
  split at hp
  · rw [List.mem_singleton] at hp
    rw [hp]
    exact hk
  · simp at hp

theorem mem_singleton_param {k v key : String} (hk : k ≠ key) :
    ∀ p ∈ ([(k, v)] : List (String × String)), p.1 ≠ key := by
  intro p hp
  rw [List.mem_singleton] at hp
  rw [hp]
  exact hk

theorem parseEngineTail_granularity_error (partKey params2 : List Char) (idx3 : Nat)
    (hlast : goLastIndex ',' params2 = some idx3)
    (hatoi : atoi (trimCut commaSpace (params2.drop idx3)) = none) :
    isErr (parseEngineTail partKey params2) = true := by
  unfold parseEngineTail
  split <;> simp_all [isErr]

theorem parseEngineRest_granularity_error (b : List Char) (i : Nat)
    (hlast : goLastIndex ',' b = some i)
    (hatoi : atoi (trimCut commaSpace (b.drop i)) = none) :
    isErr (parseEngineRest b) = true := by
  unfold parseEngineRest
  cases hidx : goIndex ',' b with
  | none => rfl
  | some i2 =>
    show isErr (parseEngineTail (b.take i2) (trimLeftCut commaSpace (b.drop i2))) = true
    obtain ⟨k, hk⟩ := trimLeftCut_eq_drop commaSpace (b.drop i2)
    rw [List.drop_drop] at hk
    rw [hk]
    cases hl : goLastIndex ',' (b.drop (i2 + k)) with
    | none =>
      unfold parseEngineTail
      split <;> simp_all [isErr]
    | some i3 =>
      have h2 := goLastIndex_drop (i2 + k) b hl
      rw [hlast] at h2
      injection h2 with h2
      apply parseEngineTail_granularity_error _ _ i3 hl
      rw [List.drop_drop]
      have h3 : i2 + k + i3 = i := by omega
      rw [h3]
      exact hatoi

/-! ## Claim theorems -/

/-- Claim C1 (code bug): the claim — and the doc comment on `UInt8AsBool`
itself — says the `UInt8` mapping is governed by `UInt8AsBool`
(false → `"uint8"`, true → `"bool"`).  The `switch` actually reads the
MySQL driver's global `TinyintAsBool`: with `UInt8AsBool = true` and
`TinyintAsBool = false` a `UInt8` column is translated to `"uint8"`, and
with the flags swapped to `"bool"`. -/
theorem translate_uint8_reads_tinyint_flag :
    (translateColumnType ⟨true, false⟩ ⟨"c", "UInt8", "UInt8", "", ""⟩).«Type» = "uint8" ∧
    (translateColumnType ⟨false, true⟩ ⟨"c", "UInt8", "UInt8", "", ""⟩).«Type» = "bool" :=
  ⟨rfl, rfl⟩

/-- Claim C2: parsing `"MergeTree(EventDate, (CounterID, EventDate), 8192)"`
succeeds with engine name `MergeTree`, partitioning key `EventDate`,
primary-key columns `["CounterID", "EventDate"]` in order, and
granularity `8192`. -/
theorem parseEngine_mergetree_roundtrip :
    parseEngine "MergeTree(EventDate, (CounterID, EventDate), 8192)" =
      .ok { Name := "MergeTree", PartitioningKey := "EventDate",
            PrimaryKey := ["CounterID", "EventDate"], Granularity := 8192 } :=
  rfl

/-- Claim C3: `parseEngine` returns an error on every input with no `(`;
on every input whose trimmed parenthesized body contains no comma; and on
every input whose field after the last comma of the body (trimmed of
commas and spaces) does not parse as a base-10 integer. -/
theorem parseEngine_error_cases :
    (∀ s : String, '(' ∉ s.data → isErr (parseEngine s) = true) ∧
    (∀ (s : String) (b : List Char), engineBody s = some b → ',' ∉ b →
      isErr (parseEngine s) = true) ∧
    (∀ (s : String) (b : List Char) (i : Nat), engineBody s = some b →
      goLastIndex ',' b = some i → atoi (trimCut commaSpace (b.drop i)) = none →
      isErr (parseEngine s) = true) := by
  refine ⟨?_, ?_, ?_⟩
  · intro s h
    unfold parseEngine
    rw [goIndex_eq_none h]
    rfl
  · intro s b hbody hcomma
    unfold engineBody at hbody
    rw [Option.map_eq_some'] at hbody
    obtain ⟨idx, hidx, hb⟩ := hbody
    unfold parseEngine
    rw [hidx]
    show isErr (match parseEngineRest (trimCut parenSpace (s.data.drop idx)) with
      | .error e => (.error e : Except String clickhouseEngine)
      | .ok (partKey, primaryKey, g) =>
        .ok { Name := String.mk (s.data.take idx),
              PartitioningKey := String.mk partKey,
              PrimaryKey := primaryKey.map String.mk,
              Granularity := g }) = true
    rw [hb]
    unfold parseEngineRest
    rw [goIndex_eq_none hcomma]
    rfl
  · intro s b i hbody hlast hatoi
    unfold engineBody at hbody
    rw [Option.map_eq_some'] at hbody
    obtain ⟨idx, hidx, hb⟩ := hbody
    unfold parseEngine
    rw [hidx]
    show isErr (match parseEngineRest (trimCut parenSpace (s.data.drop idx)) with
      | .error e => (.error e : Except String clickhouseEngine)
      | .ok (partKey, primaryKey, g) =>
        .ok { Name := String.mk (s.data.take idx),
              PartitioningKey := String.mk partKey,
              PrimaryKey := primaryKey.map String.mk,
              Granularity := g }) = true
    rw [hb]
    have h := parseEngineRest_granularity_error b i hlast hatoi
    cases hres : parseEngineRest b with
    | error e => rfl
    | ok v => rw [hres] at h; simp [isErr] at h

/-- Witness for C3: the three error cases at concrete engine strings. -/
theorem parseEngine_error_cases_witness :
    isErr (parseEngine "TinyLog") = true ∧
    isErr (parseEngine "Engine(abc)") = true ∧
    isErr (parseEngine "MergeTree(a, b, xyz)") = true :=
  ⟨parseEngine_error_cases.1 "TinyLog" (by decide),
   parseEngine_error_cases.2.1 "Engine(abc)" ("abc".data) (by decide) (by decide),
   parseEngine_error_cases.2.2 "MergeTree(a, b, xyz)" ("a, b, xyz".data) 4
     (by decide) (by decide) (by decide)⟩

/-- Counterexample to claim C4 as stated: when the raw type starts with
`(`, the code's `if idx > 0` guard leaves the type unchanged instead of
truncating to the empty string the spec's rule dictates.  The column
produced from a catalog row with raw type `"(16)"` has `DBType = "(16)"`,
not the truncation `""`. -/
theorem columns_dbtype_spec_counterexample :
    ∃ col ∈ columnsOf [("c", "(16)", "")],
      col.DBType ≠ specNormalizeDBType col.FullDBType := by
  decide

/-- Claim C4 (amended): for every column produced by the column listing,
the normalized base type equals the raw type truncated at the first `(`
when one is present at a positive index, and equals the raw type
unchanged when `(` is absent or is the first character; in particular
`"FixedString(16)"` normalizes to `"FixedString"`. -/
theorem columns_dbtype_normalization :
    (∀ (rows : List (String × String × String)) (col : Column),
      col ∈ columnsOf rows →
      (goIndex '(' col.FullDBType.data = none → col.DBType = col.FullDBType) ∧
      (∀ i, goIndex '(' col.FullDBType.data = some i → 0 < i →
        col.DBType = String.mk (col.FullDBType.data.take i)) ∧
      (goIndex '(' col.FullDBType.data = some 0 → col.DBType = col.FullDBType)) ∧
    normalizeDBType "FixedString(16)" = "FixedString" := by
  constructor
  · intro rows col hmem
    obtain ⟨r, hr, hcol⟩ := List.mem_map.mp hmem
    obtain ⟨n, ft, d⟩ := r
    subst hcol
    refine ⟨?_, ?_, ?_⟩ <;> dsimp only
    · intro h
      simp [normalizeDBType, h]
    · intro i h hi
      simp [normalizeDBType, h, hi]
    · intro h
      simp [normalizeDBType, h]
  · rfl

/-- The catalog row and resulting column used in the C4 witness. -/
def fixedStringRow : List (String × String × String) := [("c", "FixedString(16)", "")]

/-- The column `columnsOf` produces from `fixedStringRow`. -/
def fixedStringCol : Column :=
  { Name := "c", FullDBType := "FixedString(16)",
    DBType := normalizeDBType "FixedString(16)", Default := "", «Type» := "" }

/-- Witness for C4 (amended) at the raw type `"FixedString(16)"`. -/
theorem columns_dbtype_normalization_witness :
    fixedStringCol.DBType = String.mk (fixedStringCol.FullDBType.data.take 11) ∧
    normalizeDBType "FixedString(16)" = "FixedString" :=
  ⟨(columns_dbtype_normalization.1 fixedStringRow fixedStringCol
      (by decide)).2.1 11 (by decide) (by decide),
   columns_dbtype_normalization.2⟩

/-- Claim C5: type translation is total — for every global state and every
column it returns a non-empty translated type, and every base type outside
the recognized set maps to the fallback `"[]byte"`. -/
theorem translate_total (g : DriverGlobals) (c : Column) :
    (translateColumnType g c).«Type» ≠ "" ∧
    (c.DBType ∉ recognizedTypes → (translateColumnType g c).«Type» = "[]byte") := by
  obtain ⟨u, t⟩ := g
  constructor
  · show translateType ⟨u, t⟩ c.DBType ≠ ""
    unfold translateType
    split <;> try decide
    cases t
    · exact (by decide : ("uint8" : String) ≠ "")
    · exact (by decide : ("bool" : String) ≠ "")
  · intro hmem
    show translateType ⟨u, t⟩ c.DBType = "[]byte"
    unfold translateType
    split <;> simp_all [recognizedTypes]

/-- The unrecognized-type column used in the C5 witness. -/
def arrayCol : Column := ⟨"x", "Array(UInt8)", "Array", "", ""⟩

/-- Witness for C5 at the unrecognized base type `"Array"`. -/
theorem translate_total_witness :
    (translateColumnType ⟨false, false⟩ arrayCol).«Type» ≠ "" ∧
    (translateColumnType ⟨false, false⟩ arrayCol).«Type» = "[]byte" :=
  ⟨(translate_total ⟨false, false⟩ arrayCol).1,
   (translate_total ⟨false, false⟩ arrayCol).2 (by decide)⟩

/-- Counterexample to claim C6 as stated: with database `"d"`, whitelist
`["t"]` and blacklist `["t"]`, the blacklist name `"t"` does appear in the
built parameter list (it is also a whitelist name), so "the blacklist
names appear nowhere in the query or its parameters" fails. -/
theorem tableNames_blacklist_name_among_params :
    "t" ∈ (tableNamesQuery "d" ["t"] ["t"]).2 := by
  decide

/-- Claim C6 (amended): with a non-empty whitelist, the query text and
parameter list are identical to those built with an empty blacklist, and
the parameters are exactly the database name followed by the whitelist
names — so a blacklist name occurs among them only if it equals the
database name or a whitelist name. -/
theorem tableNames_whitelist_precedence (db : String) (wl bl : List String)
    (hw : wl ≠ []) (hb : bl ≠ []) :
    tableNamesQuery db wl bl = tableNamesQuery db wl [] ∧
    (tableNamesQuery db wl bl).2 = db :: wl := by
  cases wl with
  | nil => exact absurd rfl hw
  | cons w ws => constructor <;> simp [tableNamesQuery]

/-- Witness for C6 (amended) at database `"d"`, whitelist `["t"]`,
blacklist `["x"]`. -/
theorem tableNames_whitelist_precedence_witness :
    tableNamesQuery "d" ["t"] ["x"] = tableNamesQuery "d" ["t"] [] ∧
    (tableNamesQuery "d" ["t"] ["x"]).2 = "d" :: ["t"] :=
  tableNames_whitelist_precedence "d" ["t"] ["x"] (by decide) (by decide)

/-- Claim C7: for every database and table name, when the catalog returns
no row (`sql.ErrNoRows`), `PrimaryKeyInfo` returns no primary key and no
error. -/
theorem primaryKeyInfo_no_rows (database table : String) :
    primaryKeyInfo database table none = .ok none :=
  rfl

/-- Claim C8: for every config whose optional fields are empty (empty
username, password, alternate hosts and open strategy; zero timeouts;
non-positive block size), the query parameters are exactly `database`,
`no_delay` and `debug`. -/
theorem clickhouse_default_query_params (c : ClickhouseDriverConfig)
    (h1 : c.Username = "") (h2 : c.Password = "")
    (h3 : c.ReadTimeout = 0) (h4 : c.WriteTimeout = 0)
    (h5 : c.AltHosts = []) (h6 : c.ConnectionOpenStrategy = "")
    (h7 : c.BlockSize ≤ 0) :
    (clickhouseQueryParams c).map Prod.fst = ["database", "no_delay", "debug"] := by
  have h7x : ¬ (c.BlockSize > 0) := by omega
  simp [clickhouseQueryParams, h1, h2, h3, h4, h5, h6, h7x]

/-- The all-defaults config used in the C8 witness. -/
def defaultConfig : ClickhouseDriverConfig :=
  { Username := "", Password := "", Database := "db", Host := "localhost",
    Port := 9000, ReadTimeout := 0, WriteTimeout := 0, Nagle := true,
    AltHosts := [], ConnectionOpenStrategy := "", BlockSize := 0,
    Debug := false, Secure := false, SkipVerify := false }

/-- Witness for C8 at `defaultConfig`. -/
theorem clickhouse_default_query_params_witness :
    (clickhouseQueryParams defaultConfig).map Prod.fst =
      ["database", "no_delay", "debug"] :=
  clickhouse_default_query_params defaultConfig rfl rfl rfl rfl rfl rfl (by decide)

/-- Claim C9: for every config, the `no_delay` parameter is the string
form of the negation of the Nagle flag: Nagle true gives `"false"`,
Nagle false gives `"true"`. -/
theorem no_delay_negates_nagle (c : ClickhouseDriverConfig) :
    getParam "no_delay" (clickhouseQueryParams c) =
      some (if c.Nagle then "false" else "true") := by
  unfold clickhouseQueryParams
  have hu : ∀ p ∈ (if c.Username ≠ "" then [("username", c.Username)]
      else ([] : List (String × String))), p.1 ≠ "no_delay" :=
    mem_ite_singleton (by decide)
  have hp : ∀ p ∈ (if c.Password ≠ "" then [("password", c.Password)]
      else ([] : List (String × String))), p.1 ≠ "no_delay" :=
    mem_ite_singleton (by decide)
  have hd : ∀ p ∈ ([("database", c.Database)] : List (String × String)),
      p.1 ≠ "no_delay" :=
    mem_singleton_param (by decide)
  have hr : ∀ p ∈ (if c.ReadTimeout ≠ 0 then [("read_timeout", toString c.ReadTimeout)]
      else ([] : List (String × String))), p.1 ≠ "no_delay" :=
    mem_ite_singleton (by decide)
  have hw : ∀ p ∈ (if c.WriteTimeout ≠ 0 then [("write_timeout", toString c.WriteTimeout)]
      else ([] : List (String × String))), p.1 ≠ "no_delay" :=
    mem_ite_singleton (by decide)
  simp only [List.append_assoc]
  rw [getParam_append _ _ _ hu, getParam_append _ _ _ hp, getParam_append _ _ _ hd,
      getParam_append _ _ _ hr, getParam_append _ _ _ hw]
  cases c.Nagle <;> rfl

/-- Claim C10: the exported flag `UInt8AsBool` has no effect on type
translation — with `TinyintAsBool` held equal, flipping `UInt8AsBool`
yields identical output columns on every input. -/
theorem uint8_flag_no_effect (u₁ u₂ t : Bool) (c : Column) :
    translateColumnType ⟨u₁, t⟩ c = translateColumnType ⟨u₂, t⟩ c :=
  rfl

end ClickhouseDriver
